import Mathlib

/-!
Shallow embedding of the real-time connection manager of the farm_backend
repository (src/utils/connection_manager.py), together with proofs checking
the natural-language specification against it.

Modelling conventions:
- Python dicts keyed by strings become association lists `List (String × α)`
  with dict semantics (`alookup`, `aset`, `apop`); dict keys are unique, which
  appears here as the `NodupKeys` invariant.
- `datetime.utcnow()` timestamps become `Int` seconds; `isoformat` becomes the
  decimal rendering of that integer.  Each operation takes the current time
  `now` as an explicit argument.
- A FastAPI `WebSocket` is a handle identifier plus the observable behaviour
  the manager branches on: its `application_state` and whether `send_json`
  raises (`send_ok`).  Closing a socket is recorded in `closed_sockets`.
- The persistence tiers (Redis cache, relational database) become explicit
  state `PersistState`; `PersistEnv` says whether each tier is reachable.
  An unreachable tier makes the corresponding write a no-op, matching the
  source, where `self.redis` is `None` after a failed ping and every database
  failure is caught, rolled back and only logged.
- `asyncio.Lock` acquisition order is modelled separately (`LockOp`,
  `runLock`) to examine the locking discipline of the source.
-/

set_option autoImplicit false

namespace FarmBackend

/-- Configuration constant from connection_manager.py line 27: TTL of a cache
entry, 24 hours in seconds. -/
def CONNECTION_TTL : Nat := 3600 * 24

/-- Configuration constant from connection_manager.py line 28: seconds between
heartbeats. -/
def HEARTBEAT_INTERVAL : Nat := 30

/-- Configuration constant from connection_manager.py line 30: a connection is
considered stale after 3 missed heartbeats. -/
def STALE_CONNECTION_THRESHOLD : Nat := HEARTBEAT_INTERVAL * 3

/-- Seconds slept between two scans of `_periodic_cleanup`
(connection_manager.py line 442: `asyncio.sleep(HEARTBEAT_INTERVAL * 2)`). -/
def cleanup_sleep_seconds : Nat := HEARTBEAT_INTERVAL * 2

/-- The `fastapi.websockets.WebSocketState` the source compares against. -/
inductive WebSocketState
  | CONNECTING
  | CONNECTED
  | DISCONNECTED
deriving DecidableEq

/-- Observable behaviour of one underlying duplex channel: a handle id, its
application state, and whether a `send_json` on it succeeds (`send_ok = false`
models `send_json` raising an exception). -/
structure WebSocket where
  id : Nat
  application_state : WebSocketState
  send_ok : Bool
deriving DecidableEq

/-- One live entry of `self.active_connections` (connection_manager.py lines
109-114): the stored dict has keys "ws", "connected_at", "last_seen",
"metadata". -/
structure Conn where
  ws : WebSocket
  connected_at : Int
  last_seen : Int
  metadata : List (String × String)
deriving DecidableEq

/-- The mutable state of a `ConnectionManager` instance, plus the record of
which sockets have been closed by it. -/
structure ManagerState where
  active_connections : List (String × Conn)
  heartbeat_tasks : List String
  closed_sockets : List Nat
deriving DecidableEq

/-- Reachability of the two persistence tiers: `redis_up = false` models
`self.redis = None` after the failed initial ping; `db_up = false` models the
database session raising on use. -/
structure PersistEnv where
  redis_up : Bool
  db_up : Bool
deriving DecidableEq

/-- One Redis value written by `setex`: the pickled metadata dict and the TTL
it was stored with. -/
structure CacheEntry where
  value : List (String × String)
  ttl : Nat
deriving DecidableEq

/-- One row of the `UserConnection` table (models.UserConnection), keyed by
`user_id` in `PersistState.db`. -/
structure UserConnection where
  last_connected : Int
  last_disconnected : Option Int
  connection_data : List (String × String)
deriving DecidableEq

/-- The state of the two persistence tiers. -/
structure PersistState where
  redis : List (String × CacheEntry)
  db : List (String × UserConnection)
deriving DecidableEq

/-- Python dict lookup `m.get(k)` / `m[k]` on an association list. -/
def alookup {α : Type} : List (String × α) → String → Option α
  | [], _ => none
  | (k, v) :: rest, key => if k = key then some v else alookup rest key

/-- Python dict assignment `m[k] = v`: replaces the entry in place if the key
is present, otherwise appends it. -/
def aset {α : Type} : List (String × α) → String → α → List (String × α)
  | [], key, v => [(key, v)]
  | (k, w) :: rest, key, v =>
      if k = key then (k, v) :: rest else (k, w) :: aset rest key v

/-- Python dict removal `m.pop(k, None)` (the state part): removes the entry
for the key if present. -/
def apop {α : Type} : List (String × α) → String → List (String × α)
  | [], _ => []
  | (k, w) :: rest, key => if k = key then rest else (k, w) :: apop rest key

/-- Python `m.get(k, dflt)` for string-valued metadata. -/
def mget (m : List (String × String)) (k : String) (dflt : String) : String :=
  (alookup m k).getD dflt

/-- The keys of the association list are pairwise distinct — true of every
Python dict, and the standing invariant of all dict-valued state here. -/
abbrev NodupKeys {α : Type} (m : List (String × α)) : Prop :=
  (m.map Prod.fst).Nodup

/-- Number of entries of the association list carrying the given key. -/
def countKey {α : Type} (m : List (String × α)) (k : String) : Nat :=
  (m.filter (fun p => p.1 = k)).length

/-- Rendering of a timestamp, standing for `datetime.isoformat()`. -/
def isoformat (t : Int) : String := toString t

/-- Embeds `ConnectionManager.save_to_database` (connection_manager.py lines
369-397) with the two defects the specification's design notes flag fixed:
the missing closing parenthesis of the `select(...)` call at lines 375-377 and
the use of `json.dumps` without an import of `json`.  Upserts one row keyed by
`user_id`; on a database failure (`db_up = false`) the transaction is rolled
back and the error only logged, leaving the table unchanged. -/
def save_to_database (env : PersistEnv) (user_id : String)
    (metadata : List (String × String)) (now : Int)
    (db : List (String × UserConnection)) : List (String × UserConnection) :=
  if env.db_up then
    match alookup db user_id with
    | some conn =>
        aset db user_id { conn with last_connected := now, connection_data := metadata }
    | none =>
        db ++ [(user_id, { last_connected := now, last_disconnected := none,
                           connection_data := metadata })]
  else db

/-- Embeds `ConnectionManager.save_connection_metadata` (lines 316-339): adds
`last_connected` to a copy of the metadata (every string-valued entry passes
the `isinstance` serialisability filter), writes it to Redis under key
`"ws:user:" ++ user_id` with TTL `CONNECTION_TTL` when Redis is up, then
writes it to the database.  All failures are caught and logged. -/
def save_connection_metadata (env : PersistEnv) (user_id : String)
    (metadata : List (String × String)) (now : Int) (ps : PersistState) :
    PersistState :=
  let metadata_copy := aset metadata "last_connected" (isoformat now)
  let r := if env.redis_up then
      aset ps.redis ("ws:user:" ++ user_id) { value := metadata_copy, ttl := CONNECTION_TTL }
    else ps.redis
  { redis := r, db := save_to_database env user_id metadata_copy now ps.db }

/-- Embeds `ConnectionManager.update_disconnection_in_db` (lines 399-416):
sets `last_disconnected` on the existing row if present; never creates a row;
database failure is rolled back and only logged. -/
def update_disconnection_in_db (env : PersistEnv) (user_id : String) (now : Int)
    (db : List (String × UserConnection)) : List (String × UserConnection) :=
  if env.db_up then
    match alookup db user_id with
    | some conn => aset db user_id { conn with last_disconnected := some now }
    | none => db
  else db

/-- Embeds `ConnectionManager.update_disconnection_time` (lines 341-367): if
Redis is up and holds an entry for the user, re-stores it with
`last_disconnected` added and a fresh `CONNECTION_TTL`; then updates the
database row. -/
def update_disconnection_time (env : PersistEnv) (user_id : String) (now : Int)
    (ps : PersistState) : PersistState :=
  let r := if env.redis_up then
      match alookup ps.redis ("ws:user:" ++ user_id) with
      | some entry =>
          aset ps.redis ("ws:user:" ++ user_id)
            { value := aset entry.value "last_disconnected" (isoformat now),
              ttl := CONNECTION_TTL }
      | none => ps.redis
    else ps.redis
  { redis := r, db := update_disconnection_in_db env user_id now ps.db }

/-- State effect of `ConnectionManager.stop_heartbeat` (lines 182-194): the
task registered for the user, if any, is cancelled and removed. -/
def stop_heartbeat (s : ManagerState) (user_id : String) : ManagerState :=
  { s with heartbeat_tasks := s.heartbeat_tasks.filter (fun u => u ≠ user_id) }

/-- State effect of `ConnectionManager.start_heartbeat` (lines 171-180): any
existing task is stopped first, then a new task is registered. -/
def start_heartbeat (s : ManagerState) (user_id : String) : ManagerState :=
  let s1 := stop_heartbeat s user_id
  { s1 with heartbeat_tasks := s1.heartbeat_tasks ++ [user_id] }

/-- Embeds `ConnectionManager.connect` (lines 84-127): if the user already has
a live entry, its heartbeat is stopped and its socket closed (the close is
attempted inside its own try/except); the new entry is stored, metadata is
persisted best-effort, the heartbeat is started, and `true` is returned. -/
def connect (env : PersistEnv) (websocket : WebSocket) (user_id : String)
    (user_data : List (String × String)) (now : Int)
    (s : ManagerState) (ps : PersistState) :
    Bool × ManagerState × PersistState :=
  let s1 := match alookup s.active_connections user_id with
    | some old_conn =>
        { stop_heartbeat s user_id with
            closed_sockets := old_conn.ws.id :: s.closed_sockets }
    | none => s
  let conn : Conn :=
    { ws := websocket, connected_at := now, last_seen := now, metadata := user_data }
  let s2 := { s1 with active_connections := aset s1.active_connections user_id conn }
  let ps1 := save_connection_metadata env user_id user_data now ps
  let s3 := start_heartbeat s2 user_id
  (true, s3, ps1)

/-- Embeds `ConnectionManager.disconnect` (lines 129-146): if no live entry
exists, returns `none` with nothing changed; otherwise stops the heartbeat,
issues the best-effort disconnection-time write, removes the entry and
returns it. -/
def disconnect (env : PersistEnv) (user_id : String) (now : Int)
    (s : ManagerState) (ps : PersistState) :
    Option Conn × ManagerState × PersistState :=
  match alookup s.active_connections user_id with
  | some conn =>
      let s1 := stop_heartbeat s user_id
      let ps1 := update_disconnection_time env user_id now ps
      let s2 := { s1 with active_connections := apop s1.active_connections user_id }
      (some conn, s2, ps1)
  | none => (none, s, ps)

/-- Embeds `ConnectionManager.is_connected` (lines 148-150). -/
def is_connected (s : ManagerState) (user_id : String) : Bool :=
  (alookup s.active_connections user_id).isSome

/-- Embeds `ConnectionManager.get_connection` (lines 152-154). -/
def get_connection (s : ManagerState) (user_id : String) : Option Conn :=
  alookup s.active_connections user_id

/-- Embeds `ConnectionManager.get_connections_by_role` (lines 160-169): the
empty role (Python falsy) returns `[]`; otherwise both sides of the comparison
are lowercased. -/
def get_connections_by_role (s : ManagerState) (role : String) : List String :=
  if role = "" then []
  else
    let normalized_role := role.toLower
    (s.active_connections.filter
      (fun p => (mget p.2.metadata "role" "").toLower = normalized_role)).map Prod.fst

/-- Embeds `ConnectionManager.send_heartbeat` (lines 215-240): pings the
socket; on success refreshes `last_seen`; on a raised send the user is
disconnected and `false` returned. -/
def send_heartbeat (env : PersistEnv) (user_id : String) (now : Int)
    (s : ManagerState) (ps : PersistState) :
    Bool × ManagerState × PersistState :=
  match alookup s.active_connections user_id with
  | none => (false, s, ps)
  | some conn =>
      if conn.ws.send_ok then
        let conn1 : Conn := { conn with last_seen := now }
        (true, { s with active_connections := aset s.active_connections user_id conn1 }, ps)
      else
        let r := disconnect env user_id now s ps
        (false, r.2.1, r.2.2)

/-- Embeds `ConnectionManager.send_message` (lines 242-265): absent user →
`false` with nothing changed; socket not in `CONNECTED` application state →
disconnect and `false`; raised send → disconnect and `false`; successful send →
`true` (the payload content plays no role in the control flow, and the source
does not touch `last_seen` here). -/
def send_message (env : PersistEnv) (user_id : String) (now : Int)
    (s : ManagerState) (ps : PersistState) :
    Bool × ManagerState × PersistState :=
  match alookup s.active_connections user_id with
  | none => (false, s, ps)
  | some conn =>
      if conn.ws.application_state ≠ WebSocketState.CONNECTED then
        let r := disconnect env user_id now s ps
        (false, r.2.1, r.2.2)
      else if conn.ws.send_ok then
        (true, s, ps)
      else
        let r := disconnect env user_id now s ps
        (false, r.2.1, r.2.2)

/-- A user identifier as supplied by a broadcast caller: Python lets both
strings and ints through, and the source applies `str(uid)` to each. -/
inductive PyId
  | str (v : String)
  | int (v : Nat)
deriving DecidableEq

/-- Python `str(uid)`. -/
def pyStr : PyId → String
  | .str v => v
  | .int v => toString v

/-- Python truthiness of an `Optional[str]` argument: `None` and `""` are
falsy. -/
def truthyStr : Option String → Bool
  | none => false
  | some r => !(r == "")

/-- Python truthiness of an `Optional[List[...]]` argument: `None` and `[]`
are falsy. -/
def truthyList {α : Type} : Option (List α) → Bool
  | none => false
  | some l => !l.isEmpty

/-- Embeds the target-set computation of `ConnectionManager.broadcast` (lines
278-296): start from the empty set; if `role` is truthy add the role-filtered
users; if `user_ids` is truthy add the stringified ids; if neither filter is
truthy take all live connections instead; finally subtract the stringified
`exclude_ids` when truthy. -/
def broadcast_targets (s : ManagerState) (role : Option String)
    (user_ids : Option (List PyId)) (exclude_ids : Option (List PyId)) :
    Finset String :=
  let target_users : Finset String := ∅
  let target_users := if truthyStr role then
      target_users ∪ (get_connections_by_role s (role.getD "")).toFinset
    else target_users
  let target_users := if truthyList user_ids then
      target_users ∪ ((user_ids.getD []).map pyStr).toFinset
    else target_users
  let target_users := if !truthyStr role && !truthyList user_ids then
      (s.active_connections.map Prod.fst).toFinset
    else target_users
  if truthyList exclude_ids then
    target_users \ ((exclude_ids.getD []).map pyStr).toFinset
  else target_users

/-- Embeds `ConnectionManager.broadcast` (lines 267-314) at the granularity the
claims need: each computed target receives one concurrently-launched send, and
the result map has exactly one boolean per target (every send observes the
state as of the fan-out). -/
def broadcast (env : PersistEnv) (now : Int) (s : ManagerState)
    (ps : PersistState) (role : Option String)
    (user_ids : Option (List PyId)) (exclude_ids : Option (List PyId)) :
    List (String × Bool) :=
  ((broadcast_targets s role user_ids exclude_ids).sort (· ≤ ·)).map
    (fun user_id => (user_id, (send_message env user_id now s ps).1))

/-- Embeds the intended semantics of `ConnectionManager.cleanup_stale_connections`
(lines 418-430).  Note the source as written raises `NameError` on entry: it
evaluates `timedelta(seconds=STALE_CONNECTION_THRESHOLD)` but the module only
imports `datetime` from the datetime module, never `timedelta`; the expression
itself is unambiguous and is what is embedded here.  Connections whose
`last_seen` is strictly older than `now` minus the stale threshold are each
disconnected, and their number is returned. -/
def cleanup_stale_connections (env : PersistEnv) (now : Int)
    (s : ManagerState) (ps : PersistState) :
    ManagerState × PersistState × Nat :=
  let stale_threshold : Int := now - (STALE_CONNECTION_THRESHOLD : Int)
  let stale_connections :=
    (s.active_connections.filter (fun p => p.2.last_seen < stale_threshold)).map Prod.fst
  let final := stale_connections.foldl
    (fun acc user_id =>
      let r := disconnect env user_id now acc.1 acc.2
      (r.2.1, r.2.2)) (s, ps)
  (final.1, final.2, stale_connections.length)

/-- One step on the process-wide `asyncio.Lock` (`self._lock`), as performed by
a single task.  The lock is not reentrant. -/
inductive LockOp
  | acquire
  | release
deriving DecidableEq

/-- Runs a sequence of lock operations of one task against a non-reentrant
lock, tracking the hold depth.  Acquiring while the depth is positive models
the task awaiting a lock it already holds: it blocks forever, so the run has
no result. -/
def runLock : List LockOp → Nat → Option Nat
  | [], d => some d
  | LockOp.acquire :: rest, 0 => runLock rest 1
  | LockOp.acquire :: _, _ + 1 => none
  | LockOp.release :: rest, d + 1 => runLock rest d
  | LockOp.release :: _, 0 => none

/-- Lock operations performed by `stop_heartbeat` (line 184: one
`async with self._lock` block). -/
def stop_heartbeat_lock_ops : List LockOp := [LockOp.acquire, LockOp.release]

/-- Lock operations performed by `start_heartbeat` (line 173 wraps the body in
`async with self._lock`, and line 175 awaits `stop_heartbeat` inside it). -/
def start_heartbeat_lock_ops : List LockOp :=
  [LockOp.acquire] ++ stop_heartbeat_lock_ops ++ [LockOp.release]

/-- Lock operations performed by `connect` (line 90 wraps the body in
`async with self._lock`; line 97 awaits `stop_heartbeat` when the user already
has an entry; line 120 awaits `start_heartbeat`). -/
def connect_lock_ops (already_connected : Bool) : List LockOp :=
  [LockOp.acquire]
    ++ (if already_connected then stop_heartbeat_lock_ops else [])
    ++ start_heartbeat_lock_ops
    ++ [LockOp.release]

/-- Lock operations performed by `disconnect` (line 133 wraps the body in
`async with self._lock`; line 136 awaits `stop_heartbeat` when the entry is
present). -/
def disconnect_lock_ops (present : Bool) : List LockOp :=
  [LockOp.acquire]
    ++ (if present then stop_heartbeat_lock_ops else [])
    ++ [LockOp.release]

/-! ### Lemmas about the dictionary operations -/

theorem alookup_aset_self {α : Type} (m : List (String × α)) (k : String) (v : α) :
    alookup (aset m k v) k = some v := by
  induction m with
  | nil => simp [aset, alookup]
  | cons p rest ih =>
      obtain ⟨a, b⟩ := p
      by_cases hak : a = k
      · subst hak
        simp [aset, alookup]
      · simp [aset, alookup, hak, ih]

theorem alookup_aset_of_ne {α : Type} (m : List (String × α)) (k k' : String)
    (v : α) (h : k' ≠ k) :
    alookup (aset m k v) k' = alookup m k' := by
  induction m with
  | nil => simp [aset, alookup, Ne.symm h]
  | cons p rest ih =>
      obtain ⟨a, b⟩ := p
      by_cases hak : a = k
      · subst hak
        simp [aset, alookup, Ne.symm h]
      · simp [aset, alookup, hak, ih]

theorem mem_keys_aset {α : Type} (m : List (String × α)) (k k' : String) (v : α) :
    k' ∈ (aset m k v).map Prod.fst ↔ k' ∈ m.map Prod.fst ∨ k' = k := by
  induction m with
  | nil => simp [aset]
  | cons p rest ih =>
      obtain ⟨a, b⟩ := p
      by_cases hak : a = k
      · subst hak
        simp [aset]
        tauto
      · simp [aset, hak, ih]
        tauto

theorem nodupKeys_aset {α : Type} (m : List (String × α)) (k : String) (v : α)
    (h : NodupKeys m) : NodupKeys (aset m k v) := by
  induction m with
  | nil => simp [aset, NodupKeys]
  | cons p rest ih =>
      obtain ⟨a, b⟩ := p
      rw [NodupKeys, List.map_cons, List.nodup_cons] at h
      by_cases hak : a = k
      · subst hak
        have h2 : aset ((a, b) :: rest) a v = (a, v) :: rest := by simp [aset]
        rw [NodupKeys, h2, List.map_cons, List.nodup_cons]
        exact h
      · rw [NodupKeys]
        simp only [aset, if_neg hak, List.map_cons, List.nodup_cons]
        refine ⟨?_, ih h.2⟩
        intro hmem
        rcases (mem_keys_aset rest k a v).mp hmem with h1 | h1
        · exact h.1 h1
        · exact hak h1

theorem countKey_cons_self {α : Type} (a : String) (b : α)
    (rest : List (String × α)) :
    countKey ((a, b) :: rest) a = countKey rest a + 1 := by
  simp [countKey, List.filter_cons]

theorem countKey_cons_of_ne {α : Type} (a k : String) (b : α)
    (rest : List (String × α)) (h : a ≠ k) :
    countKey ((a, b) :: rest) k = countKey rest k := by
  simp [countKey, List.filter_cons, h]

theorem countKey_eq_zero {α : Type} (m : List (String × α)) (k : String)
    (h : k ∉ m.map Prod.fst) : countKey m k = 0 := by
  induction m with
  | nil => rfl
  | cons p rest ih =>
      obtain ⟨a, b⟩ := p
      simp only [List.map_cons, List.mem_cons, not_or] at h
      rw [countKey_cons_of_ne a k b rest (fun hc => h.1 hc.symm)]
      exact ih h.2

theorem countKey_aset_self {α : Type} (m : List (String × α)) (k : String) (v : α)
    (h : NodupKeys m) : countKey (aset m k v) k = 1 := by
  induction m with
  | nil =>
      show countKey [(k, v)] k = 1
      rw [countKey_cons_self]
      rfl
  | cons p rest ih =>
      obtain ⟨a, b⟩ := p
      rw [NodupKeys, List.map_cons, List.nodup_cons] at h
      by_cases hak : a = k
      · subst hak
        have h2 : aset ((a, b) :: rest) a v = (a, v) :: rest := by simp [aset]
        rw [h2, countKey_cons_self, countKey_eq_zero rest a h.1]
      · have h2 : aset ((a, b) :: rest) k v = (a, b) :: aset rest k v := by
          simp [aset, hak]
        rw [h2, countKey_cons_of_ne a k b _ hak]
        exact ih h.2

theorem countKey_le_one {α : Type} (m : List (String × α)) (k : String)
    (h : NodupKeys m) : countKey m k ≤ 1 := by
  induction m with
  | nil => simp [countKey]
  | cons p rest ih =>
      obtain ⟨a, b⟩ := p
      rw [NodupKeys, List.map_cons, List.nodup_cons] at h
      by_cases hak : a = k
      · subst hak
        rw [countKey_cons_self, countKey_eq_zero rest a h.1]
      · rw [countKey_cons_of_ne a k b rest hak]
        exact ih h.2

theorem apop_sublist {α : Type} (m : List (String × α)) (k : String) :
    List.Sublist (apop m k) m := by
  induction m with
  | nil => simp [apop]
  | cons p rest ih =>
      obtain ⟨a, b⟩ := p
      by_cases hak : a = k
      · simp only [apop, if_pos hak]
        exact List.sublist_cons_self (a, b) rest
      · simp only [apop, if_neg hak]
        exact List.Sublist.cons₂ (a, b) ih

theorem nodupKeys_apop {α : Type} (m : List (String × α)) (k : String)
    (h : NodupKeys m) : NodupKeys (apop m k) := by
  exact List.Nodup.sublist (List.Sublist.map Prod.fst (apop_sublist m k)) h

theorem alookup_eq_none {α : Type} (m : List (String × α)) (k : String) :
    alookup m k = none ↔ k ∉ m.map Prod.fst := by
  induction m with
  | nil => simp [alookup]
  | cons p rest ih =>
      obtain ⟨a, b⟩ := p
      by_cases hak : a = k
      · subst hak
        simp [alookup]
      · simp [alookup, hak, ih, Ne.symm hak]

theorem alookup_apop_self {α : Type} (m : List (String × α)) (k : String)
    (h : NodupKeys m) : alookup (apop m k) k = none := by
  induction m with
  | nil => rfl
  | cons p rest ih =>
      obtain ⟨a, b⟩ := p
      rw [NodupKeys, List.map_cons, List.nodup_cons] at h
      by_cases hak : a = k
      · simp only [apop, if_pos hak]
        exact (alookup_eq_none rest k).mpr (hak ▸ h.1)
      · simp only [apop, if_neg hak, alookup, if_neg hak]
        exact ih h.2

theorem alookup_apop_of_ne {α : Type} (m : List (String × α)) (k k' : String)
    (h : k' ≠ k) : alookup (apop m k) k' = alookup m k' := by
  induction m with
  | nil => rfl
  | cons p rest ih =>
      obtain ⟨a, b⟩ := p
      by_cases hak : a = k
      · subst hak
        have h2 : apop ((a, b) :: rest) a = rest := by simp [apop]
        have h3 : alookup ((a, b) :: rest) k' = alookup rest k' := by
          simp [alookup, Ne.symm h]
        rw [h2, h3]
      · simp only [apop, if_neg hak, alookup]
        by_cases hak' : a = k'
        · simp [hak']
        · simp [hak', ih]

theorem apop_of_not_mem {α : Type} (m : List (String × α)) (k : String)
    (h : k ∉ m.map Prod.fst) : apop m k = m := by
  induction m with
  | nil => rfl
  | cons p rest ih =>
      obtain ⟨a, b⟩ := p
      simp only [List.map_cons, List.mem_cons, not_or] at h
      have hak : ¬ a = k := fun hc => h.1 hc.symm
      simp only [apop, if_neg hak]
      rw [ih h.2]

theorem count_filter_ne_append (l : List String) (u : String) :
    ((l.filter (fun x => x ≠ u)) ++ [u]).count u = 1 := by
  rw [List.count_append]
  have h1 : (l.filter (fun x => x ≠ u)).count u = 0 := by
    rw [List.count_eq_zero]
    intro hmem
    have h2 := List.of_mem_filter hmem
    simp at h2
  rw [h1]
  simp

/-! ### Shape lemmas for `connect` -/

theorem connect_fst (env : PersistEnv) (ws : WebSocket) (uid : String)
    (md : List (String × String)) (now : Int) (s : ManagerState) (ps : PersistState) :
    (connect env ws uid md now s ps).1 = true := by
  cases h : alookup s.active_connections uid <;> simp [connect, h]

theorem connect_active (env : PersistEnv) (ws : WebSocket) (uid : String)
    (md : List (String × String)) (now : Int) (s : ManagerState) (ps : PersistState) :
    (connect env ws uid md now s ps).2.1.active_connections =
      aset s.active_connections uid
        { ws := ws, connected_at := now, last_seen := now, metadata := md } := by
  cases h : alookup s.active_connections uid <;>
    simp [connect, h, start_heartbeat, stop_heartbeat]

theorem connect_closed_of_live (env : PersistEnv) (ws : WebSocket) (uid : String)
    (md : List (String × String)) (now : Int) (s : ManagerState) (ps : PersistState)
    (c : Conn) (h : alookup s.active_connections uid = some c) :
    (connect env ws uid md now s ps).2.1.closed_sockets =
      c.ws.id :: s.closed_sockets := by
  simp [connect, h, start_heartbeat, stop_heartbeat]

theorem connect_tasks_count (env : PersistEnv) (ws : WebSocket) (uid : String)
    (md : List (String × String)) (now : Int) (s : ManagerState) (ps : PersistState) :
    (connect env ws uid md now s ps).2.1.heartbeat_tasks.count uid = 1 := by
  cases h : alookup s.active_connections uid <;>
    simp only [connect, h, start_heartbeat, stop_heartbeat] <;>
    exact count_filter_ne_append _ uid

/-- C1: at most one live entry per userID, and a second `connect()` for the
same userID force-closes the prior channel, stops its heartbeat and replaces
the entry, so two sequential `connect()` calls leave exactly one live entry
(the second) with the first channel closed. -/
theorem c1_connect_supersedes (env : PersistEnv) (ws1 ws2 : WebSocket)
    (uid : String) (md1 md2 : List (String × String)) (t1 t2 : Int)
    (s : ManagerState) (ps : PersistState)
    (h : NodupKeys s.active_connections)
    (r1 : Bool × ManagerState × PersistState)
    (hr1 : r1 = connect env ws1 uid md1 t1 s ps)
    (r2 : Bool × ManagerState × PersistState)
    (hr2 : r2 = connect env ws2 uid md2 t2 r1.2.1 r1.2.2) :
    r1.1 = true ∧ r2.1 = true ∧
    get_connection r2.2.1 uid =
      some { ws := ws2, connected_at := t2, last_seen := t2, metadata := md2 } ∧
    countKey r2.2.1.active_connections uid = 1 ∧
    ws1.id ∈ r2.2.1.closed_sockets ∧
    r2.2.1.heartbeat_tasks.count uid = 1 ∧
    NodupKeys r2.2.1.active_connections ∧
    (∀ u : String, countKey r2.2.1.active_connections u ≤ 1) := by
  subst hr2
  subst hr1
  have hact1 : (connect env ws1 uid md1 t1 s ps).2.1.active_connections =
      aset s.active_connections uid
        { ws := ws1, connected_at := t1, last_seen := t1, metadata := md1 } :=
    connect_active env ws1 uid md1 t1 s ps
  have hlive : alookup (connect env ws1 uid md1 t1 s ps).2.1.active_connections uid =
      some { ws := ws1, connected_at := t1, last_seen := t1, metadata := md1 } := by
    rw [hact1]
    exact alookup_aset_self _ _ _
  have hnodup1 : NodupKeys (connect env ws1 uid md1 t1 s ps).2.1.active_connections := by
    rw [hact1]
    exact nodupKeys_aset _ _ _ h
  have hact2 : (connect env ws2 uid md2 t2 (connect env ws1 uid md1 t1 s ps).2.1
        (connect env ws1 uid md1 t1 s ps).2.2).2.1.active_connections =
      aset (connect env ws1 uid md1 t1 s ps).2.1.active_connections uid
        { ws := ws2, connected_at := t2, last_seen := t2, metadata := md2 } :=
    connect_active env ws2 uid md2 t2 _ _
  have hnodup2 : NodupKeys (connect env ws2 uid md2 t2
        (connect env ws1 uid md1 t1 s ps).2.1
        (connect env ws1 uid md1 t1 s ps).2.2).2.1.active_connections := by
    rw [hact2]
    exact nodupKeys_aset _ _ _ hnodup1
  refine ⟨connect_fst env ws1 uid md1 t1 s ps,
          connect_fst env ws2 uid md2 t2 _ _, ?_, ?_, ?_, ?_, hnodup2, ?_⟩
  · rw [get_connection, hact2]
    exact alookup_aset_self _ _ _
  · rw [hact2]
    exact countKey_aset_self _ _ _ hnodup1
  · rw [connect_closed_of_live env ws2 uid md2 t2 _ _ _ hlive]
    exact List.mem_cons_self _ _
  · exact connect_tasks_count env ws2 uid md2 t2 _ _
  · intro u
    exact countKey_le_one _ u hnodup2

/-- Closed witness for `c1_connect_supersedes` at a concrete two-connect run. -/
def c1r1 : Bool × ManagerState × PersistState :=
  connect ⟨true, true⟩ ⟨1, WebSocketState.CONNECTED, true⟩ "42"
    [("role", "deliver")] 0 ⟨[], [], []⟩ ⟨[], []⟩

def c1r2 : Bool × ManagerState × PersistState :=
  connect ⟨true, true⟩ ⟨2, WebSocketState.CONNECTED, true⟩ "42"
    [("role", "buyer")] 5 c1r1.2.1 c1r1.2.2

theorem c1_connect_supersedes_witness :
    NodupKeys (⟨[], [], []⟩ : ManagerState).active_connections ∧
    get_connection c1r2.2.1 "42" =
      some { ws := ⟨2, WebSocketState.CONNECTED, true⟩, connected_at := 5,
             last_seen := 5, metadata := [("role", "buyer")] } :=
  ⟨by decide,
   (c1_connect_supersedes ⟨true, true⟩ ⟨1, WebSocketState.CONNECTED, true⟩
      ⟨2, WebSocketState.CONNECTED, true⟩ "42" [("role", "deliver")]
      [("role", "buyer")] 0 5 ⟨[], [], []⟩ ⟨[], []⟩ (by decide)
      c1r1 rfl c1r2 rfl).2.2.1⟩

theorem disconnect_of_absent (env : PersistEnv) (uid : String) (now : Int)
    (s : ManagerState) (ps : PersistState)
    (h : alookup s.active_connections uid = none) :
    disconnect env uid now s ps = (none, s, ps) := by
  simp [disconnect, h]

/-- C7: `disconnect` is idempotent — with no live entry it returns `none`,
changes nothing and issues no persistence write; with a live entry it stops
the heartbeat, removes the entry, issues the disconnection-time write and
returns the removed entry; a repeated call then returns `none` and changes
nothing. -/
theorem c7_disconnect_idempotent (env : PersistEnv) (uid : String) (now : Int)
    (s : ManagerState) (ps : PersistState)
    (h : NodupKeys s.active_connections) :
    (alookup s.active_connections uid = none →
       disconnect env uid now s ps = (none, s, ps)) ∧
    (∀ conn : Conn, alookup s.active_connections uid = some conn →
       disconnect env uid now s ps =
         (some conn,
          { active_connections := apop s.active_connections uid,
            heartbeat_tasks := s.heartbeat_tasks.filter (fun u => u ≠ uid),
            closed_sockets := s.closed_sockets },
          update_disconnection_time env uid now ps)) ∧
    (∀ t2 : Int,
       disconnect env uid t2 (disconnect env uid now s ps).2.1
           (disconnect env uid now s ps).2.2 =
         (none, (disconnect env uid now s ps).2.1,
          (disconnect env uid now s ps).2.2)) := by
  refine ⟨?_, ?_, ?_⟩
  · intro hnone
    simp [disconnect, hnone]
  · intro conn hsome
    simp [disconnect, hsome, stop_heartbeat]
  · intro t2
    cases hl : alookup s.active_connections uid with
    | none =>
        rw [disconnect_of_absent env uid now s ps hl]
        exact disconnect_of_absent env uid t2 s ps hl
    | some conn =>
        have hact : (disconnect env uid now s ps).2.1.active_connections =
            apop s.active_connections uid := by
          simp [disconnect, hl, stop_heartbeat]
        have h2 : alookup (disconnect env uid now s ps).2.1.active_connections uid =
            none := by
          rw [hact]
          exact alookup_apop_self _ _ h
        exact disconnect_of_absent env uid t2 _ _ h2

/-- Concrete manager state for the C7 witness: one live user "42". -/
def c7s : ManagerState :=
  ⟨[("42", ⟨⟨1, WebSocketState.CONNECTED, true⟩, 0, 0, [("role", "deliver")]⟩)],
   ["42"], []⟩

theorem c7_disconnect_idempotent_witness :
    NodupKeys c7s.active_connections ∧
    disconnect ⟨true, true⟩ "42" 9 c7s ⟨[], []⟩ =
      (some ⟨⟨1, WebSocketState.CONNECTED, true⟩, 0, 0, [("role", "deliver")]⟩,
       ⟨[], [], []⟩,
       update_disconnection_time ⟨true, true⟩ "42" 9 ⟨[], []⟩) :=
  ⟨by decide,
   by
     have hx := (c7_disconnect_idempotent ⟨true, true⟩ "42" 9 c7s ⟨[], []⟩
        (by decide)).2.1
        ⟨⟨1, WebSocketState.CONNECTED, true⟩, 0, 0, [("role", "deliver")]⟩ rfl
     exact hx⟩

/-- C4: persistence-tier reachability never changes the boolean result of
`connect` (always `true` once registration is reached) nor the resulting
in-memory registry state; the same holds for `disconnect`. -/
theorem c4_connect_persistence_independent (env env' : PersistEnv)
    (ws : WebSocket) (uid : String) (md : List (String × String)) (now : Int)
    (s : ManagerState) (ps ps' : PersistState) :
    (connect env ws uid md now s ps).1 = true ∧
    (connect env ws uid md now s ps).1 = (connect env' ws uid md now s ps').1 ∧
    (connect env ws uid md now s ps).2.1 = (connect env' ws uid md now s ps').2.1 ∧
    (disconnect env uid now s ps).1 = (disconnect env' uid now s ps').1 ∧
    (disconnect env uid now s ps).2.1 = (disconnect env' uid now s ps').2.1 := by
  refine ⟨connect_fst env ws uid md now s ps, ?_, ?_, ?_, ?_⟩
  · rw [connect_fst, connect_fst]
  · cases h : alookup s.active_connections uid <;> simp [connect, h]
  · cases h : alookup s.active_connections uid <;> simp [disconnect, h]
  · cases h : alookup s.active_connections uid <;> simp [disconnect, h]

/-- C3 counterexample: a successful `send_message` returns `true` but does not
touch `last_seen` — here the entry keeps `last_seen = 5` although the send
happens at time 100, and the whole state is returned unchanged, refuting the
claim that a successful send updates the connection's `lastSeen`. -/
theorem c3_send_message_counterexample :
    send_message ⟨true, true⟩ "42" 100
        ⟨[("42", ⟨⟨1, WebSocketState.CONNECTED, true⟩, 0, 5, [("role", "deliver")]⟩)],
         ["42"], []⟩ ⟨[], []⟩ =
      (true,
       ⟨[("42", ⟨⟨1, WebSocketState.CONNECTED, true⟩, 0, 5, [("role", "deliver")]⟩)],
        ["42"], []⟩,
       ⟨[], []⟩) ∧
    (5 : Int) ≠ 100 := by decide

/-- C3 amended: a successful `send_message` returns `true` and leaves the
state (including `lastSeen`) unchanged; a non-sendable channel or a raised
send disconnects the entry and returns `false`; `lastSeen` is refreshed by
`send_heartbeat` on a successful ping (and initialised by `connect`), not by
`send_message`. -/
theorem c3_send_message_spec (env : PersistEnv) (uid : String) (now : Int)
    (s : ManagerState) (ps : PersistState) (conn : Conn)
    (h : NodupKeys s.active_connections)
    (hc : alookup s.active_connections uid = some conn) :
    (conn.ws.application_state = WebSocketState.CONNECTED → conn.ws.send_ok = true →
       send_message env uid now s ps = (true, s, ps)) ∧
    ((conn.ws.application_state ≠ WebSocketState.CONNECTED ∨ conn.ws.send_ok = false) →
       (send_message env uid now s ps).1 = false ∧
       alookup (send_message env uid now s ps).2.1.active_connections uid = none) ∧
    (conn.ws.send_ok = true →
       send_heartbeat env uid now s ps =
         (true,
          { s with active_connections := aset s.active_connections uid
                     { conn with last_seen := now } },
          ps)) := by
  have hdis1 : (disconnect env uid now s ps).2.1.active_connections =
      apop s.active_connections uid := by
    simp [disconnect, hc, stop_heartbeat]
  have hnone : alookup (apop s.active_connections uid) uid = none :=
    alookup_apop_self _ _ h
  refine ⟨?_, ?_, ?_⟩
  · intro h1 h2
    simp [send_message, hc, h1, h2]
  · intro h1
    have hres : send_message env uid now s ps =
        (false, (disconnect env uid now s ps).2.1,
         (disconnect env uid now s ps).2.2) := by
      rcases h1 with h1 | h1
      · simp [send_message, hc, h1]
      · by_cases hstate : conn.ws.application_state = WebSocketState.CONNECTED
        · simp [send_message, hc, hstate, h1]
        · simp [send_message, hc, hstate]
    rw [hres]
    exact ⟨rfl, by rw [hdis1]; exact hnone⟩
  · intro h2
    simp [send_heartbeat, hc, h2]

theorem c3_send_message_spec_witness :
    NodupKeys
      [("42", (⟨⟨1, WebSocketState.CONNECTED, true⟩, 0, 5, [("role", "deliver")]⟩ : Conn))] ∧
    send_message ⟨true, true⟩ "42" 100
        ⟨[("42", ⟨⟨1, WebSocketState.CONNECTED, true⟩, 0, 5, [("role", "deliver")]⟩)],
         ["42"], []⟩ ⟨[], []⟩ =
      (true,
       ⟨[("42", ⟨⟨1, WebSocketState.CONNECTED, true⟩, 0, 5, [("role", "deliver")]⟩)],
        ["42"], []⟩,
       ⟨[], []⟩) :=
  ⟨by decide,
   (c3_send_message_spec ⟨true, true⟩ "42" 100
      ⟨[("42", ⟨⟨1, WebSocketState.CONNECTED, true⟩, 0, 5, [("role", "deliver")]⟩)],
       ["42"], []⟩ ⟨[], []⟩
      ⟨⟨1, WebSocketState.CONNECTED, true⟩, 0, 5, [("role", "deliver")]⟩
      (by decide) rfl).1 rfl rfl⟩

/-- C9: the registry operations do all funnel through the single
`asyncio.Lock`, but the lock is not reentrant and the source re-acquires it
from inside the critical section: `connect` (holding the lock from line 90)
awaits `start_heartbeat`, which takes the same lock at line 173 — and even
alone `start_heartbeat` deadlocks, because it awaits `stop_heartbeat` (line
184) inside its own critical section; `disconnect` (line 133) deadlocks the
same way via `stop_heartbeat`.  Only the code paths with no nested
acquisition (a `disconnect` of an absent user, a bare `stop_heartbeat`) run
to completion, refuting the claim that every such operation sequence
completes under the lock without deadlocking. -/
theorem c9_lock_discipline_deadlock :
    runLock (connect_lock_ops false) 0 = none ∧
    runLock (connect_lock_ops true) 0 = none ∧
    runLock (disconnect_lock_ops true) 0 = none ∧
    runLock start_heartbeat_lock_ops 0 = none ∧
    runLock stop_heartbeat_lock_ops 0 = some 0 ∧
    runLock (disconnect_lock_ops false) 0 = some 0 := by decide

/-- Concrete registry for the C2 stale-scan demonstration: at scan time 100
the stale threshold is 100 − 90 = 10, so "old" (last seen 5) is stale,
"edge" (last seen exactly 10) is not — the comparison is strict — and
"fresh" (last seen 50) is not. -/
def c2s : ManagerState :=
  ⟨[("old", ⟨⟨1, WebSocketState.CONNECTED, true⟩, 0, 5, []⟩),
    ("edge", ⟨⟨2, WebSocketState.CONNECTED, true⟩, 0, 10, []⟩),
    ("fresh", ⟨⟨3, WebSocketState.CONNECTED, true⟩, 0, 50, []⟩)],
   ["old", "edge", "fresh"], []⟩

/-- C2: the intended stale scan (the source itself raises `NameError` on
entry, since `timedelta` is never imported) disconnects exactly the live
connections whose `last_seen` is strictly older than `now` minus
`3 × HEARTBEAT_INTERVAL` and returns their count, and the reaper period is
`2 × HEARTBEAT_INTERVAL`, demonstrated on a concrete registry together with
the constant values 90 s and 60 s. -/
theorem c2_cleanup_stale_demo :
    (cleanup_stale_connections ⟨true, true⟩ 100 c2s ⟨[], []⟩).2.2 = 1 ∧
    alookup (cleanup_stale_connections ⟨true, true⟩ 100 c2s
        ⟨[], []⟩).1.active_connections "old" = none ∧
    alookup (cleanup_stale_connections ⟨true, true⟩ 100 c2s
        ⟨[], []⟩).1.active_connections "edge" =
      some ⟨⟨2, WebSocketState.CONNECTED, true⟩, 0, 10, []⟩ ∧
    alookup (cleanup_stale_connections ⟨true, true⟩ 100 c2s
        ⟨[], []⟩).1.active_connections "fresh" =
      some ⟨⟨3, WebSocketState.CONNECTED, true⟩, 0, 50, []⟩ ∧
    "old" ∉ (cleanup_stale_connections ⟨true, true⟩ 100 c2s
        ⟨[], []⟩).1.heartbeat_tasks ∧
    STALE_CONNECTION_THRESHOLD = 3 * HEARTBEAT_INTERVAL ∧
    STALE_CONNECTION_THRESHOLD = 90 ∧
    cleanup_sleep_seconds = 2 * HEARTBEAT_INTERVAL ∧
    cleanup_sleep_seconds = 60 := by decide

/-- C5: the intended upsert semantics of the database-write helper — the
helper in the source never runs as written (the `select(...)` call at lines
375-377 is missing its closing parenthesis, a parse error, and the metadata
serialisation calls `json.dumps` although `json` is never imported) —
demonstrated on concrete tables: a fresh userID gets exactly one new row, an
existing row is updated in place (other rows and its `last_disconnected`
untouched), and a failed write is rolled back without reaching the caller. -/
theorem c5_save_to_database_upsert :
    save_to_database ⟨true, true⟩ "42" [("role", "deliver")] 100 [] =
      [("42", ⟨100, none, [("role", "deliver")]⟩)] ∧
    save_to_database ⟨true, true⟩ "42" [("role", "buyer")] 200
        [("7", ⟨1, none, []⟩), ("42", ⟨100, some 150, [("role", "deliver")]⟩)] =
      [("7", ⟨1, none, []⟩), ("42", ⟨200, some 150, [("role", "buyer")]⟩)] ∧
    save_to_database ⟨true, false⟩ "42" [("role", "deliver")] 100 [] = [] := by
  decide

/-- C6 counterexample: the cache write of a `connect` for user "42" lands
under the key "ws:user:42" with no entry under "conn:42", refuting the
claimed "conn:" key schema (the 24 h TTL part of the claim is correct). -/
theorem c6_cache_key_counterexample :
    (connect ⟨true, true⟩ ⟨1, WebSocketState.CONNECTED, true⟩ "42"
        [("role", "deliver")] 100 ⟨[], [], []⟩ ⟨[], []⟩).2.2.redis =
      [("ws:user:42",
        ⟨[("role", "deliver"), ("last_connected", "100")], CONNECTION_TTL⟩)] ∧
    alookup (connect ⟨true, true⟩ ⟨1, WebSocketState.CONNECTED, true⟩ "42"
        [("role", "deliver")] 100 ⟨[], [], []⟩ ⟨[], []⟩).2.2.redis "conn:42" =
      none ∧
    "ws:user:42" ≠ "conn:42" := by decide

/-- C6 amended: every cache write produced by a connect or disconnect for a
userID stores the serialised metadata (with `last_connected` resp.
`last_disconnected` added) under the key "ws:user:" ++ userID with a TTL of
exactly 86400 seconds (the disconnect-side write only rewrites an existing
cached entry). -/
theorem c6_cache_write_spec (env : PersistEnv) (ws : WebSocket) (uid : String)
    (md : List (String × String)) (now : Int) (s : ManagerState)
    (ps : PersistState) (hup : env.redis_up = true) :
    CONNECTION_TTL = 86400 ∧
    (connect env ws uid md now s ps).2.2.redis =
      aset ps.redis ("ws:user:" ++ uid)
        ⟨aset md "last_connected" (isoformat now), CONNECTION_TTL⟩ ∧
    (∀ conn entry, alookup s.active_connections uid = some conn →
       alookup ps.redis ("ws:user:" ++ uid) = some entry →
       (disconnect env uid now s ps).2.2.redis =
         aset ps.redis ("ws:user:" ++ uid)
           ⟨aset entry.value "last_disconnected" (isoformat now), CONNECTION_TTL⟩) := by
  refine ⟨by decide, ?_, ?_⟩
  · cases h : alookup s.active_connections uid <;>
      simp [connect, h, save_connection_metadata, hup]
  · intro conn entry hc he
    simp [disconnect, hc, update_disconnection_time, hup, he]

theorem c6_cache_write_spec_witness :
    (⟨true, true⟩ : PersistEnv).redis_up = true ∧
    (connect ⟨true, true⟩ ⟨1, WebSocketState.CONNECTED, true⟩ "42" [] 7
        ⟨[], [], []⟩ ⟨[], []⟩).2.2.redis =
      aset (⟨[], []⟩ : PersistState).redis ("ws:user:" ++ "42")
        ⟨aset [] "last_connected" (isoformat 7), CONNECTION_TTL⟩ :=
  ⟨rfl,
   (c6_cache_write_spec ⟨true, true⟩ ⟨1, WebSocketState.CONNECTED, true⟩ "42"
      [] 7 ⟨[], [], []⟩ ⟨[], []⟩ rfl).2.1⟩

theorem alookup_eq_some_mem {α : Type} (m : List (String × α)) (k : String)
    (v : α) (h : NodupKeys m) : alookup m k = some v ↔ (k, v) ∈ m := by
  induction m with
  | nil => simp [alookup]
  | cons p rest ih =>
      obtain ⟨a, b⟩ := p
      rw [NodupKeys, List.map_cons, List.nodup_cons] at h
      by_cases hak : a = k
      · subst hak
        have hl : alookup ((a, b) :: rest) a = some b := by simp [alookup]
        rw [hl]
        constructor
        · intro hv
          injection hv with hv
          subst hv
          exact List.mem_cons_self _ _
        · intro hv
          rcases List.mem_cons.mp hv with hv | hv
          · injection hv with h1 h2
            rw [h2]
          · exact absurd (List.mem_map_of_mem Prod.fst hv) h.1
      · have hl : alookup ((a, b) :: rest) k = alookup rest k := by
          simp [alookup, hak]
        rw [hl, ih h.2]
        constructor
        · intro hv
          exact List.mem_cons.mpr (Or.inr hv)
        · intro hv
          rcases List.mem_cons.mp hv with hv | hv
          · injection hv with h1 h2
            exact absurd h1.symm hak
          · exact hv

/-- The role-filtered component of the broadcast target set, as the
specification phrases it. -/
def roleSet (s : ManagerState) (role : Option String) : Finset String :=
  match role with
  | some r => (get_connections_by_role s r).toFinset
  | none => ∅

/-- The explicit-ids component of the broadcast target set, as the
specification phrases it (ids coerced to strings). -/
def idSet (ids : Option (List PyId)) : Finset String :=
  match ids with
  | some l => (l.map pyStr).toFinset
  | none => ∅

theorem roleSet_of_falsy (s : ManagerState) (role : Option String)
    (h : truthyStr role = false) : roleSet s role = ∅ := by
  cases role with
  | none => rfl
  | some r =>
      have hr : r = "" := by simpa [truthyStr] using h
      subst hr
      simp [roleSet, get_connections_by_role]

theorem roleSet_of_truthy (s : ManagerState) (role : Option String)
    (h : truthyStr role = true) :
    roleSet s role = (get_connections_by_role s (role.getD "")).toFinset := by
  cases role with
  | none => simp [truthyStr] at h
  | some r => rfl

theorem idSet_of_falsy (ids : Option (List PyId)) (h : truthyList ids = false) :
    idSet ids = ∅ := by
  cases ids with
  | none => rfl
  | some l =>
      cases l with
      | nil => simp [idSet]
      | cons a t => simp [truthyList] at h

theorem idSet_eq (ids : Option (List PyId)) :
    idSet ids = ((ids.getD []).map pyStr).toFinset := by
  cases ids with
  | none => simp [idSet]
  | some l => rfl

/-- Normal form of the source's target-set computation: a base set (the
union of the two filters when either is truthy, all live connections
otherwise) minus the stringified exclude set. -/
theorem broadcast_targets_eq (s : ManagerState) (role : Option String)
    (user_ids exclude_ids : Option (List PyId)) :
    broadcast_targets s role user_ids exclude_ids =
      (if truthyStr role || truthyList user_ids then
         roleSet s role ∪ idSet user_ids
       else (s.active_connections.map Prod.fst).toFinset) \ idSet exclude_ids := by
  have hex : ∀ t : Finset String,
      (if truthyList exclude_ids then
         t \ ((exclude_ids.getD []).map pyStr).toFinset
       else t) = t \ idSet exclude_ids := by
    intro t
    cases he : truthyList exclude_ids
    · rw [if_neg (by simp [he]), idSet_of_falsy exclude_ids he, Finset.sdiff_empty]
    · rw [if_pos rfl, idSet_eq]
  cases hr : truthyStr role <;> cases hu : truthyList user_ids
  · simp only [broadcast_targets]
    rw [hex]
    simp [hr, hu]
  · simp only [broadcast_targets]
    rw [hex]
    simp [hr, hu, roleSet_of_falsy s role hr, idSet_eq user_ids]
  · simp only [broadcast_targets]
    rw [hex]
    simp [hr, hu, roleSet_of_truthy s role hr, idSet_of_falsy user_ids hu]
  · simp only [broadcast_targets]
    rw [hex]
    simp [hr, hu, roleSet_of_truthy s role hr, idSet_eq user_ids]

/-- C8: the key set of a broadcast equals the role-filtered connections
united with the explicit userIDs when either filter is supplied (Python
truthiness: a present, non-empty value), or all live connections when
neither is, always minus the excluded ids — an excluded id is never
targeted, even if its role matches — and `get_connections_by_role` returns
exactly the live userIDs whose stored role matches case-insensitively. -/
theorem c8_broadcast_targets_spec (s : ManagerState) (role : Option String)
    (user_ids exclude_ids : Option (List PyId))
    (h : NodupKeys s.active_connections) :
    ((truthyStr role = true ∨ truthyList user_ids = true) →
       broadcast_targets s role user_ids exclude_ids =
         (roleSet s role ∪ idSet user_ids) \ idSet exclude_ids) ∧
    (truthyStr role = false → truthyList user_ids = false →
       broadcast_targets s role user_ids exclude_ids =
         (s.active_connections.map Prod.fst).toFinset \ idSet exclude_ids) ∧
    (∀ x, x ∈ idSet exclude_ids →
       x ∉ broadcast_targets s role user_ids exclude_ids) ∧
    (∀ r : String, r ≠ "" → ∀ uid : String,
       (uid ∈ get_connections_by_role s r ↔
         ∃ c : Conn, alookup s.active_connections uid = some c ∧
           (mget c.metadata "role" "").toLower = r.toLower)) := by
  refine ⟨?_, ?_, ?_, ?_⟩
  · intro hor
    rw [broadcast_targets_eq]
    rcases hor with h1 | h1 <;> rw [if_pos (by simp [h1])]
  · intro h1 h2
    rw [broadcast_targets_eq, if_neg (by simp [h1, h2])]
  · intro x hx
    rw [broadcast_targets_eq]
    intro hmem
    rcases Finset.mem_sdiff.mp hmem with ⟨_, hnot⟩
    exact hnot hx
  · intro r hr uid
    constructor
    · intro hmem
      rw [get_connections_by_role, if_neg hr] at hmem
      simp only [List.mem_map] at hmem
      obtain ⟨p, hp, hpe⟩ := hmem
      obtain ⟨hpm, hpred⟩ := List.mem_filter.mp hp
      refine ⟨p.2, ?_, by simpa using hpred⟩
      rw [alookup_eq_some_mem _ _ _ h, ← hpe]
      simpa using hpm
    · intro hmem
      obtain ⟨c, hc, hpred⟩ := hmem
      rw [get_connections_by_role, if_neg hr]
      simp only [List.mem_map]
      refine ⟨(uid, c), ?_, rfl⟩
      rw [List.mem_filter]
      exact ⟨(alookup_eq_some_mem _ _ _ h).mp hc, by simpa using hpred⟩

/-- Concrete registry for the C8 witness: "42" and "43" both hold role
"Deliver" (met case-insensitively by the filter "deliver"). -/
def c8s : ManagerState :=
  ⟨[("42", ⟨⟨1, WebSocketState.CONNECTED, true⟩, 0, 0, [("role", "Deliver")]⟩),
    ("43", ⟨⟨2, WebSocketState.CONNECTED, true⟩, 0, 0, [("role", "Deliver")]⟩)],
   ["42", "43"], []⟩

theorem c8_broadcast_targets_spec_witness :
    NodupKeys c8s.active_connections ∧
    broadcast_targets c8s (some "deliver") none (some [PyId.str "43"]) =
      (roleSet c8s (some "deliver") ∪ idSet none) \ idSet (some [PyId.str "43"]) :=
  ⟨by decide,
   (c8_broadcast_targets_spec c8s (some "deliver") none (some [PyId.str "43"])
      (by decide)).1 (Or.inl rfl)⟩

/-- C10: each element of `user_ids` and `exclude_ids` is coerced with `str`
before the target set is computed, so a numeric id and its string form
denote the same target: concretely, `user_ids = [42]` targets exactly the
connection keyed "42", and `exclude_ids = [42]` excludes it. -/
theorem c10_broadcast_id_coercion (s : ManagerState) (role : Option String)
    (uids exs : List PyId) :
    broadcast_targets s role (some uids) (some exs) =
      broadcast_targets s role (some (uids.map (fun u => PyId.str (pyStr u))))
        (some (exs.map (fun u => PyId.str (pyStr u)))) ∧
    broadcast_targets
        ⟨[("42", ⟨⟨1, WebSocketState.CONNECTED, true⟩, 0, 0, []⟩)], ["42"], []⟩
        none (some [PyId.int 42]) none = {"42"} ∧
    broadcast_targets
        ⟨[("42", ⟨⟨1, WebSocketState.CONNECTED, true⟩, 0, 0, []⟩)], ["42"], []⟩
        none none (some [PyId.int 42]) = ∅ := by
  have hmap : ∀ l : List PyId,
      (l.map (fun u => PyId.str (pyStr u))).map pyStr = l.map pyStr := by
    intro l
    rw [List.map_map]
    rfl
  have hempt : ∀ l : List PyId,
      (l.map (fun u => PyId.str (pyStr u))).isEmpty = l.isEmpty := by
    intro l
    cases l <;> rfl
  refine ⟨?_, by decide, by decide⟩
  rw [broadcast_targets, broadcast_targets]
  simp only [truthyList, Option.getD_some, hmap, hempt]

/-! ### General characterisation of the stale scan and the database upsert -/

theorem disconnect_active (env : PersistEnv) (uid : String) (now : Int)
    (s : ManagerState) (ps : PersistState) :
    ((disconnect env uid now s ps).2.1).active_connections =
      apop s.active_connections uid := by
  cases hl : alookup s.active_connections uid with
  | none =>
      rw [disconnect_of_absent env uid now s ps hl,
        apop_of_not_mem _ _ ((alookup_eq_none _ _).mp hl)]
  | some c => simp [disconnect, hl, stop_heartbeat]

theorem alookup_foldl_apop {α : Type} (L : List String) :
    ∀ (m : List (String × α)), NodupKeys m → ∀ k : String,
      alookup (L.foldl (fun acc u => apop acc u) m) k =
        if k ∈ L then none else alookup m k := by
  induction L with
  | nil =>
      intro m h k
      simp
  | cons u L ih =>
      intro m h k
      rw [List.foldl_cons]
      by_cases hk : k = u
      · subst hk
        rw [ih (apop m k) (nodupKeys_apop m k h) k]
        by_cases hmem : k ∈ L
        · rw [if_pos hmem, if_pos (List.mem_cons_self k L)]
        · rw [if_neg hmem, if_pos (List.mem_cons_self k L)]
          exact alookup_apop_self m k h
      · rw [ih (apop m u) (nodupKeys_apop m u h) k]
        have hnc : k ∉ u :: L ↔ k ∉ L := by
          simp [List.mem_cons, hk]
        by_cases hmem : k ∈ L
        · rw [if_pos hmem, if_pos (List.mem_cons.mpr (Or.inr hmem))]
        · rw [if_neg hmem, if_neg (fun hm => hmem ((List.mem_cons.mp hm).resolve_left hk))]
          exact alookup_apop_of_ne m u k hk

theorem cleanup_active_eq (env : PersistEnv) (now : Int) (s : ManagerState)
    (ps : PersistState) :
    ((cleanup_stale_connections env now s ps).1).active_connections =
      ((s.active_connections.filter
          (fun p => p.2.last_seen < now - (STALE_CONNECTION_THRESHOLD : Int))).map
        Prod.fst).foldl (fun acc u => apop acc u) s.active_connections := by
  have key : ∀ (L : List String) (s0 : ManagerState) (ps0 : PersistState),
      ((L.foldl (fun acc user_id =>
          let r := disconnect env user_id now acc.1 acc.2
          (r.2.1, r.2.2)) (s0, ps0)).1).active_connections =
        L.foldl (fun acc u => apop acc u) s0.active_connections := by
    intro L
    induction L with
    | nil =>
        intro s0 ps0
        rfl
    | cons u L ih =>
        intro s0 ps0
        rw [List.foldl_cons, List.foldl_cons]
        have h1 := ih ((disconnect env u now s0 ps0).2.1)
          ((disconnect env u now s0 ps0).2.2)
        rw [disconnect_active env u now s0 ps0] at h1
        exact h1
  exact key _ s ps

/-- Full characterisation of the intended stale scan for any registry with
distinct keys: an entry is removed exactly when its `last_seen` is strictly
older than `now` minus the stale threshold, and the returned count is the
number of such entries. -/
theorem cleanup_stale_characterisation (env : PersistEnv) (now : Int)
    (s : ManagerState) (ps : PersistState)
    (h : NodupKeys s.active_connections) :
    (∀ (uid : String) (conn : Conn),
       alookup s.active_connections uid = some conn →
       alookup ((cleanup_stale_connections env now s ps).1).active_connections uid =
         (if conn.last_seen < now - (STALE_CONNECTION_THRESHOLD : Int) then none
          else some conn)) ∧
    (cleanup_stale_connections env now s ps).2.2 =
      (s.active_connections.filter
        (fun p => p.2.last_seen < now - (STALE_CONNECTION_THRESHOLD : Int))).length := by
  constructor
  · intro uid conn hc
    have hmem : uid ∈ (s.active_connections.filter
        (fun p => p.2.last_seen < now - (STALE_CONNECTION_THRESHOLD : Int))).map
          Prod.fst ↔
        conn.last_seen < now - (STALE_CONNECTION_THRESHOLD : Int) := by
      constructor
      · intro hm
        simp only [List.mem_map] at hm
        obtain ⟨p, hp, hpe⟩ := hm
        obtain ⟨hpm, hpred⟩ := List.mem_filter.mp hp
        have h2 : alookup s.active_connections p.1 = some p.2 :=
          (alookup_eq_some_mem _ _ _ h).mpr (by simpa using hpm)
        rw [hpe, hc] at h2
        injection h2 with h2
        rw [h2]
        simpa using hpred
      · intro hst
        refine List.mem_map.mpr ⟨(uid, conn), List.mem_filter.mpr ⟨?_, ?_⟩, rfl⟩
        · exact (alookup_eq_some_mem _ _ _ h).mp hc
        · simpa using hst
    rw [cleanup_active_eq, alookup_foldl_apop _ _ h uid]
    by_cases hst : conn.last_seen < now - (STALE_CONNECTION_THRESHOLD : Int)
    · rw [if_pos (hmem.mpr hst), if_pos hst]
    · rw [if_neg (fun hm => hst (hmem.mp hm)), if_neg hst]
      exact hc
  · simp [cleanup_stale_connections]

theorem alookup_append_of_none {α : Type} (m m' : List (String × α)) (k : String)
    (h : alookup m k = none) : alookup (m ++ m') k = alookup m' k := by
  induction m with
  | nil => simp
  | cons p rest ih =>
      obtain ⟨a, b⟩ := p
      by_cases hak : a = k
      · simp [alookup, hak] at h
      · simp only [List.cons_append, alookup, if_neg hak] at h ⊢
        exact ih h

theorem alookup_append_singleton_of_ne {α : Type} (m : List (String × α))
    (k' k : String) (v : α) (h : k ≠ k') :
    alookup (m ++ [(k', v)]) k = alookup m k := by
  induction m with
  | nil => simp [alookup, Ne.symm h]
  | cons p rest ih =>
      obtain ⟨a, b⟩ := p
      by_cases hak : a = k
      · simp [alookup, hak]
      · simp only [List.cons_append, alookup, if_neg hak]
        exact ih

theorem countKey_append {α : Type} (m m' : List (String × α)) (k : String) :
    countKey (m ++ m') k = countKey m k + countKey m' k := by
  simp [countKey, List.filter_append]

theorem nodupKeys_append_singleton {α : Type} (m : List (String × α))
    (k : String) (v : α) (h : NodupKeys m) (hk : k ∉ m.map Prod.fst) :
    NodupKeys (m ++ [(k, v)]) := by
  rw [NodupKeys, List.map_append]
  simp only [List.map_cons, List.map_nil]
  rw [List.nodup_append]
  refine ⟨h, List.nodup_singleton k, ?_⟩
  intro a ha hb
  simp only [List.mem_singleton] at hb
  subst hb
  exact hk ha

/-- General upsert property of the (repaired) database-write helper: with
the database reachable, exactly one row for the userID remains, carrying the
new `last_connected` and metadata blob, and every other row is untouched;
with the database unreachable the table is unchanged (the transaction is
rolled back and nothing propagates to the caller). -/
theorem save_to_database_upsert_general (env : PersistEnv) (uid : String)
    (md : List (String × String)) (now : Int)
    (db : List (String × UserConnection)) (h : NodupKeys db) :
    (env.db_up = true →
       ((alookup (save_to_database env uid md now db) uid).map
           (fun r => (r.last_connected, r.connection_data)) = some (now, md) ∧
        countKey (save_to_database env uid md now db) uid = 1 ∧
        NodupKeys (save_to_database env uid md now db) ∧
        ∀ k, k ≠ uid →
          alookup (save_to_database env uid md now db) k = alookup db k)) ∧
    (env.db_up = false → save_to_database env uid md now db = db) := by
  constructor
  · intro hup
    cases hl : alookup db uid with
    | some row =>
        have hdb : save_to_database env uid md now db =
            aset db uid { row with last_connected := now, connection_data := md } := by
          simp [save_to_database, hup, hl]
        rw [hdb]
        refine ⟨?_, countKey_aset_self db uid _ h, nodupKeys_aset db uid _ h, ?_⟩
        · rw [alookup_aset_self]
          rfl
        · intro k hk
          exact alookup_aset_of_ne db uid k _ hk
    | none =>
        have hdb : save_to_database env uid md now db =
            db ++ [(uid, { last_connected := now, last_disconnected := none,
                           connection_data := md })] := by
          simp [save_to_database, hup, hl]
        rw [hdb]
        have hnot : uid ∉ db.map Prod.fst := (alookup_eq_none db uid).mp hl
        refine ⟨?_, ?_, nodupKeys_append_singleton db uid _ h hnot, ?_⟩
        · rw [alookup_append_of_none db _ uid hl]
          simp [alookup]
        · rw [countKey_append, countKey_eq_zero db uid hnot]
          simp [countKey]
        · intro k hk
          exact alookup_append_singleton_of_ne db uid k _ hk
  · intro hdown
    simp [save_to_database, hdown]

end FarmBackend
